import Mathlib

/-!
Verification of the fridge-agent inventory core
(`examples/fridge_agent/src/fridge_agent/db.py` and `inventory_tool.py`).

Two embeddings are used, matching the two granularities at which the source
manipulates dates:

* the *date-level ledger model*: inventory rows (`Item`) carry their stored
  canonical `YYYY-MM-DD` dates as day numbers (`Int`).  SQLite's
  `ORDER BY date(exp_at)` on canonical 10-character dates coincides with the
  numeric order of day numbers, so the FIFO consumption engine, the add
  action, the expiry update and the default-change cascade are embedded over
  this model.  Quantities (`REAL` in the schema, Python `float`) are embedded
  as exact rationals `ℚ`; the engine's explicit tolerance `1e-9` becomes the
  rational `eps`.
* the *text-level model*: the date normalizer (`_parse_to_date`,
  `_parse_text_to_date`), the legacy-row migration pass
  (`_normalize_existing_rows_to_date_only`) and the failure behaviour of the
  default-change cascade are embedded over rows that store their dates as the
  text the database actually holds.
-/

namespace Fridge

/-- `exp_source` column: `'user' | 'default'` (db.py, `Item` dataclass). -/
inductive ExpSource where
  | user
  | default
deriving DecidableEq, Repr

/-- An inventory row (db.py dataclass `Item`; table `inventory`).  The stored
canonical `YYYY-MM-DD` texts `in_at`/`exp_at` are represented by their day
numbers; `created_at`/`updated_at` timestamps are opaque tokens. -/
structure Item where
  id : Nat
  name : String
  quantity : ℚ
  unit : Option String
  in_at : Int
  exp_at : Int
  exp_source : ExpSource
  created_at : Nat
  updated_at : Nat
deriving DecidableEq, Repr

/-- One entry of `details` built by `consume` (db.py line 238/246):
`{"row_id": …, "consumed": …, "deleted": …}`. -/
structure Detail where
  row_id : Nat
  consumed : ℚ
  deleted : Bool
deriving DecidableEq, Repr

/-- The dictionary returned by `consume` (db.py line 249). -/
structure Outcome where
  requested : ℚ
  unfulfilled : ℚ
  details : List Detail
deriving DecidableEq, Repr

/-- The float tolerance `1e-9` of db.py line 236, as an exact rational. -/
def eps : ℚ := 1 / 1000000000

/-- The `ORDER BY date(exp_at) ASC, id ASC` order of the `consume` query
(db.py line 228). -/
def keyLE (a b : Item) : Prop :=
  a.exp_at < b.exp_at ∨ (a.exp_at = b.exp_at ∧ a.id ≤ b.id)

instance : DecidableRel keyLE := fun a b => by
  unfold keyLE; infer_instance

instance : IsTotal Item keyLE where
  total a b := by
    rcases lt_trichotomy a.exp_at b.exp_at with h | h | h
    · exact Or.inl (Or.inl h)
    · rcases Nat.le_total a.id b.id with h2 | h2
      · exact Or.inl (Or.inr ⟨h, h2⟩)
      · exact Or.inr (Or.inr ⟨h.symm, h2⟩)
    · exact Or.inr (Or.inl h)

instance : IsTrans Item keyLE where
  trans a b c hab hbc := by
    rcases hab with h1 | ⟨e1, i1⟩
    · rcases hbc with h2 | ⟨e2, _⟩
      · exact Or.inl (h1.trans h2)
      · exact Or.inl (e2 ▸ h1)
    · rcases hbc with h2 | ⟨e2, i2⟩
      · exact Or.inl (e1 ▸ h2)
      · exact Or.inr ⟨e1.trans e2, i1.trans i2⟩

/-- The row set fetched by `consume`:
`SELECT … FROM inventory WHERE name=? ORDER BY date(exp_at) ASC, id ASC`
(db.py lines 223–231). -/
def consumeRows (state : List Item) (name : String) : List Item :=
  (state.filter (fun b => b.name == name)).insertionSort keyLE

/-- The `for r in rows:` loop of `consume` (db.py lines 232–247), returning
the accumulated `details`, the staged per-row write actions
(`(id, none)` = `DELETE`, `(id, some q)` = `UPDATE … SET quantity=q`) and the
final `remaining`. -/
def consumeLoop : List Item → ℚ → List Detail × List (Nat × Option ℚ) × ℚ
  | [], remaining => ([], [], remaining)
  | r :: rs, remaining =>
    if remaining ≤ 0 then ([], [], remaining)
    else if r.quantity ≤ remaining + eps then
      let rest := consumeLoop rs (remaining - r.quantity)
      (⟨r.id, r.quantity, true⟩ :: rest.1, (r.id, none) :: rest.2.1, rest.2.2)
    else
      let rest := consumeLoop rs 0
      (⟨r.id, remaining, false⟩ :: rest.1,
        (r.id, some (r.quantity - remaining)) :: rest.2.1, rest.2.2)

/-- Application of the staged `DELETE`/`UPDATE … WHERE id=?` statements to the
table.  A `DELETE` removes the row with the given id; an `UPDATE` sets its
`quantity` and `updated_at` (db.py lines 237, 242–245). -/
def applyActs (acts : List (Nat × Option ℚ)) (now : Nat) (state : List Item) :
    List Item :=
  state.filterMap fun b =>
    match acts.find? (fun a => a.1 == b.id) with
    | none => some b
    | some (_, none) => none
    | some (_, some q) => some { b with quantity := q, updated_at := now }

/-- `consume(conn, name, qty, tz)` (db.py lines 220–249): fetch the rows for
`name` in `(date(exp_at), id)` order, run the depletion loop, apply the staged
writes, and return
`{"requested": qty, "unfulfilled": max(0.0, remaining), "details": details}`
together with the committed table. -/
def consume (state : List Item) (name : String) (qty : ℚ) (now : Nat) :
    Outcome × List Item :=
  let res := consumeLoop (consumeRows state name) qty
  ({ requested := qty, unfulfilled := max 0 res.2.2, details := res.1 },
    applyActs res.2.1 now state)

/-- Modelled from the spec: the `discard` operation is imported by
`inventory_tool.py` from the db module but its implementation is absent from
the sources under inspection.  Per spec §4.4/§9 it runs the identical FIFO
algorithm as `consume` (the extra waste-log record is outside the core's
observable ledger state), so it is modelled as the same state transformer. -/
def discard (state : List Item) (name : String) (qty : ℚ) (now : Nat) :
    Outcome × List Item :=
  consume state name qty now

/-- Sum of the `consumed` fields of a detail list. -/
def sumConsumed (details : List Detail) : ℚ :=
  (details.map (fun d => d.consumed)).sum

/-- A row of `shelf_life_defaults` (db.py lines 43–48): `name` is the primary
key, `days` satisfies `CHECK(days > 0)`. -/
structure ShelfLifeDefault where
  name : String
  days : Int
  created_at : Nat
  updated_at : Nat
deriving DecidableEq, Repr

/-- `get_default_days` (db.py lines 131–133). -/
def get_default_days (defaults : List ShelfLifeDefault) (name : String) :
    Option Int :=
  (defaults.find? (fun d => d.name == name)).map (fun d => d.days)

/-- `upsert_default_days` (db.py lines 136–146):
`INSERT … ON CONFLICT(name) DO UPDATE SET days, updated_at`.  The caller must
respect `CHECK(days > 0)`; the check itself is enforced where the operation
can be reached with a non-positive argument. -/
def upsert_default_days (defaults : List ShelfLifeDefault) (name : String)
    (days : Int) (now : Nat) : List ShelfLifeDefault :=
  if (defaults.find? (fun d => d.name == name)).isSome then
    defaults.map fun d =>
      if d.name == name then { d with days := days, updated_at := now } else d
  else
    defaults ++ [⟨name, days, now, now⟩]

/-- `update_item_exp_by_id` (db.py lines 210–217): `UPDATE inventory SET
exp_at=?, exp_source=?, updated_at=? WHERE id=?`, returning `cur.rowcount`. -/
def update_item_exp_by_id (state : List Item) (item_id : Nat) (new_exp : Int)
    (now : Nat) (src : ExpSource) : Nat × List Item :=
  ((state.filter (fun b => b.id == item_id)).length,
    state.map fun b =>
      if b.id == item_id then
        { b with exp_at := new_exp, exp_source := src, updated_at := now }
      else b)

/-- `update_default_and_recalc_items` (db.py lines 172–183): upsert the
default, `SELECT id, in_at … WHERE name=? AND exp_source='default'`, then one
`UPDATE … WHERE id=?` per selected row setting
`exp_at = in_at + timedelta(new_days)` and `updated_at = now`; returns the
count of selected rows.  `none` models the `IntegrityError` raised by
`CHECK(days > 0)` when `new_days ≤ 0` (nothing is committed in that case). -/
def update_default_and_recalc_items (defaults : List ShelfLifeDefault)
    (inv : List Item) (name : String) (new_days : Int) (now : Nat) :
    Option (Nat × List ShelfLifeDefault × List Item) :=
  if new_days ≤ 0 then none
  else
    let defs' := upsert_default_days defaults name new_days now
    let rows := inv.filter
      (fun b => b.name == name && b.exp_source == ExpSource.default)
    let acts := rows.map (fun r => (r.id, r.in_at))
    let inv' := inv.map fun b =>
      match acts.find? (fun a => a.1 == b.id) with
      | some a => { b with exp_at := a.2 + new_days, updated_at := now }
      | none => b
    some (rows.length, defs', inv')

/-- Result of the tool layer's `add` action (inventory_tool.py lines 99–134):
`ok` carries the new row id, the resolved `in_at`/`exp_at` dates and
`exp_source`; `error` is the `{"status": "error", …}` dictionary. -/
inductive AddResult where
  | ok (id : Nat) (in_at exp_at : Int) (src : ExpSource)
  | error
deriving DecidableEq, Repr

/-- The `add` branch of `_inventory_fn` (inventory_tool.py lines 99–134)
composed with `add_item` (db.py lines 150–169).  Date arguments are taken
already parsed (`none` = absent, resolving to today); the expiry-resolution
priority is `exp_days` > `exp_at` > looked-up default, implicitly registering
a 7-day default when none exists.  `add_item`'s `INSERT` enforces
`CHECK(quantity >= 0)`: a negative quantity raises, which the blanket handler
turns into an error result — after the default upsert (which commits on its
own) has already happened. -/
def addAction (defaults : List ShelfLifeDefault) (inv : List Item)
    (name? : Option String) (quantity? : Option ℚ) (unit? : Option String)
    (in_at? : Option Int) (exp_days? : Option Int) (exp_at? : Option Int)
    (today : Int) (now : Nat) (nextId : Nat) :
    AddResult × List ShelfLifeDefault × List Item :=
  match name?, quantity? with
  | some name, some qty =>
    if name = "" then (AddResult.error, defaults, inv)
    else
      let in_d := in_at?.getD today
      let resolved : Int × ExpSource × List ShelfLifeDefault :=
        match exp_days? with
        | some k => (in_d + k, ExpSource.user, defaults)
        | none =>
          match exp_at? with
          | some e => (e, ExpSource.user, defaults)
          | none =>
            match get_default_days defaults name with
            | some d => (in_d + d, ExpSource.default, defaults)
            | none =>
              (in_d + 7, ExpSource.default,
                upsert_default_days defaults name 7 now)
      if qty < 0 then (AddResult.error, resolved.2.2, inv)
      else
        (AddResult.ok nextId in_d resolved.1 resolved.2.1, resolved.2.2,
          inv ++ [⟨nextId, name, qty, unit?, in_d, resolved.1, resolved.2.1,
            now, now⟩])
  | _, _ => (AddResult.error, defaults, inv)

/-- The `(exp_at, in_at, id)` lexicographic order named by the spec as the
canonical consumption order. -/
def specTripleLE (x y : Int × Int × Nat) : Prop :=
  x.1 < y.1 ∨ (x.1 = y.1 ∧ (x.2.1 < y.2.1 ∨ (x.2.1 = y.2.1 ∧ x.2.2 ≤ y.2.2)))

instance : DecidableRel specTripleLE := fun x y => by
  unfold specTripleLE; infer_instance

/-- The `(exp_at, in_at, id)` keys of the batches a consumption touched, in
the order they were touched. -/
def visitedTriples (state : List Item) (out : Outcome) :
    List (Int × Int × Nat) :=
  out.details.filterMap fun d =>
    (state.find? (fun b => b.id == d.row_id)).map fun b =>
      (b.exp_at, b.in_at, b.id)

/-- A single batch whose quantity sits exactly at the engine's `1e-9`
tolerance above the request. -/
def epsItem : Item :=
  ⟨1, "a", 1 + eps, none, 0, 3, ExpSource.user, 0, 0⟩

/-- Two same-expiry batches whose `in_at` order disagrees with their `id`
order: id 1 arrived on day 3, id 2 arrived on day 1, both expire on day 5. -/
def tieItemA : Item := ⟨1, "a", 1, none, 3, 5, ExpSource.user, 0, 0⟩

/-- See `tieItemA`. -/
def tieItemB : Item := ⟨2, "a", 1, none, 1, 5, ExpSource.user, 0, 0⟩

/-- A small well-formed inventory used as concrete witness input. -/
def wItems : List Item :=
  [⟨1, "milk", 2, none, 0, 7, ExpSource.default, 0, 0⟩,
   ⟨2, "milk", 1, none, 0, 9, ExpSource.user, 0, 0⟩,
   ⟨3, "egg", 5, none, 0, 9, ExpSource.default, 0, 0⟩]

/-- A small defaults table used as concrete witness input. -/
def wDefaults : List ShelfLifeDefault := [⟨"milk", 7, 0, 0⟩]

/-- The partially consumed milk batch left by `consume wItems "milk" (5/2) 5`. -/
def wConsumed : Item := ⟨2, "milk", 1/2, none, 0, 9, ExpSource.user, 0, 5⟩

/-! ### Text-level model: the date normalizer

`_parse_to_date` (inventory_tool.py lines 65–83) and `_parse_text_to_date`
(db.py lines 97–113) run a three-stage `try` chain over the stripped input:
`datetime.strptime(s, "%Y-%m-%d")`, then `datetime.fromisoformat(s)` with
timezone attachment/conversion, then `datetime.strptime(s[:10], "%Y-%m-%d")`.
The parsers are modelled character-by-character over `List Char`:

* `strptimeYMD` models `strptime` with format `"%Y-%m-%d"`: CPython compiles
  it to the regex `\d{4}` `-` `(1[0-2]|0[1-9]|[1-9])` `-`
  `(3[01]|[12]\d|0[1-9]|[1-9])` anchored on the whole string, so one- or
  two-digit month/day are accepted; `date()` construction then validates the
  calendar range.  The model accepts ASCII digits (CPython's `\d` would also
  match other Unicode decimal digits; such inputs are outside the modelled
  scope).
* `fromisoChars` models `datetime.fromisoformat` (Python ≥ 3.11 semantics)
  for calendar dates in extended (`YYYY-MM-DD`) or basic (`YYYYMMDD`) form,
  an optional time `HH[:MM[:SS]]` / `HHMM[SS]` after an arbitrary one-char
  separator with an optional fractional-seconds part, and an optional offset
  `Z` / `±HH` / `±HH:MM` / `±HHMM`.  Week-date forms and seconds-bearing
  offsets are outside the modelled scope.  Fractional seconds are dropped:
  offsets are whole minutes, so they can never move the converted value
  across a day boundary and the resulting *date* is unaffected.
* the target `ZoneInfo` timezone is modelled as a fixed UTC offset in
  minutes (`tzoff`); `Ymd` is a calendar date; `Char`-level whitespace
  stripping models `str.strip()`.

Python's `date` range `MINYEAR = 1 ≤ year ≤ MAXYEAR = 9999` is enforced
wherever a `date` is constructed; a conversion overflowing it raises, which
the enclosing `try` turns into fallthrough to stage 3. -/

/-- A calendar date (Python `datetime.date`). -/
structure Ymd where
  y : Nat
  m : Nat
  d : Nat
deriving DecidableEq, Repr

/-- Numeric value of an ASCII digit. -/
def dig (c : Char) : Nat := c.toNat - 48

/-- Gregorian leap year (`calendar.isleap`). -/
def isLeap (y : Nat) : Bool := (y % 4 == 0 && y % 100 != 0) || y % 400 == 0

/-- Number of days in a month. -/
def daysInMonth (y m : Nat) : Nat :=
  if m = 2 then (if isLeap y then 29 else 28)
  else if m = 4 ∨ m = 6 ∨ m = 9 ∨ m = 11 then 30
  else 31

/-- `datetime.date(y, m, d)` construction: validates the Python date range. -/
def mkYmd (y m d : Nat) : Option Ymd :=
  if 1 ≤ y ∧ y ≤ 9999 ∧ 1 ≤ m ∧ m ≤ 12 ∧ 1 ≤ d ∧ d ≤ daysInMonth y m then
    some ⟨y, m, d⟩
  else none

/-- The month-day tail of the `%Y-%m-%d` regex: `-` was already consumed;
month and day are one or two digits each, the day ends the string. -/
def parseMDraw : List Char → Option (Nat × Nat)
  | [m1, '-', d1] =>
    if m1.isDigit && d1.isDigit then some (dig m1, dig d1) else none
  | [m1, '-', d1, d2] =>
    if m1.isDigit && d1.isDigit && d2.isDigit then
      some (dig m1, 10 * dig d1 + dig d2)
    else none
  | [m1, m2, '-', d1] =>
    if m1.isDigit && m2.isDigit && d1.isDigit then
      some (10 * dig m1 + dig m2, dig d1)
    else none
  | [m1, m2, '-', d1, d2] =>
    if m1.isDigit && m2.isDigit && d1.isDigit && d2.isDigit then
      some (10 * dig m1 + dig m2, 10 * dig d1 + dig d2)
    else none
  | _ => none

/-- `datetime.strptime(s, "%Y-%m-%d").date()`: four-digit year, dash,
lenient month-day tail, calendar validation. -/
def strptimeYMD : List Char → Option Ymd
  | y1 :: y2 :: y3 :: y4 :: '-' :: rest =>
    if y1.isDigit && y2.isDigit && y3.isDigit && y4.isDigit then
      match parseMDraw rest with
      | some (m, d) =>
        mkYmd (1000 * dig y1 + 100 * dig y2 + 10 * dig y3 + dig y4) m d
      | none => none
    else none
  | _ => none

/-- The spec's stage (1), "exact `YYYY-MM-DD`": exactly ten characters,
two-digit month and day, calendar-valid. -/
def exactYMDChars : List Char → Option Ymd
  | [y1, y2, y3, y4, '-', m1, m2, '-', d1, d2] =>
    if y1.isDigit && y2.isDigit && y3.isDigit && y4.isDigit &&
        m1.isDigit && m2.isDigit && d1.isDigit && d2.isDigit then
      mkYmd (1000 * dig y1 + 100 * dig y2 + 10 * dig y3 + dig y4)
        (10 * dig m1 + dig m2) (10 * dig d1 + dig d2)
    else none
  | _ => none

/-- The parsed content of an ISO-8601 date-time: the calendar date, the
time of day, and the UTC offset in minutes when one was present. -/
structure IsoDT where
  date : Ymd
  hh : Nat
  mm : Nat
  ss : Nat
  offMin : Option Int
deriving DecidableEq, Repr

/-- The date part of `fromisoformat`: `YYYY-MM-DD` (extended) or `YYYYMMDD`
(basic), returning the date and the unconsumed tail. -/
def splitDate : List Char → Option (Ymd × List Char)
  | y1 :: y2 :: y3 :: y4 :: '-' :: m1 :: m2 :: '-' :: d1 :: d2 :: rest =>
    if y1.isDigit && y2.isDigit && y3.isDigit && y4.isDigit &&
        m1.isDigit && m2.isDigit && d1.isDigit && d2.isDigit then
      (mkYmd (1000 * dig y1 + 100 * dig y2 + 10 * dig y3 + dig y4)
        (10 * dig m1 + dig m2) (10 * dig d1 + dig d2)).map (fun d => (d, rest))
    else none
  | y1 :: y2 :: y3 :: y4 :: m1 :: m2 :: d1 :: d2 :: rest =>
    if y1.isDigit && y2.isDigit && y3.isDigit && y4.isDigit &&
        m1.isDigit && m2.isDigit && d1.isDigit && d2.isDigit then
      (mkYmd (1000 * dig y1 + 100 * dig y2 + 10 * dig y3 + dig y4)
        (10 * dig m1 + dig m2) (10 * dig d1 + dig d2)).map (fun d => (d, rest))
    else none
  | _ => none

/-- The optional UTC-offset tail: empty, `Z`, `±HH`, `±HH:MM` or `±HHMM`. -/
def parseOff : List Char → Option (Option Int)
  | [] => some none
  | ['Z'] => some (some 0)
  | s :: h1 :: h2 :: rest =>
    if (s = '+' ∨ s = '-') ∧ (h1.isDigit && h2.isDigit) then
      let sgn : Int := if s = '+' then 1 else -1
      let hh := 10 * dig h1 + dig h2
      match rest with
      | [] => if hh ≤ 23 then some (some (sgn * (hh * 60))) else none
      | [':', m1, m2] =>
        if m1.isDigit && m2.isDigit && hh ≤ 23 && 10 * dig m1 + dig m2 ≤ 59
        then some (some (sgn * (hh * 60 + (10 * dig m1 + dig m2))))
        else none
      | [m1, m2] =>
        if m1.isDigit && m2.isDigit && hh ≤ 23 && 10 * dig m1 + dig m2 ≤ 59
        then some (some (sgn * (hh * 60 + (10 * dig m1 + dig m2))))
        else none
      | _ => none
    else none
  | _ => none

/-- Strip an optional fractional-seconds part (`.` or `,` followed by at
least one digit), returning the characters that follow it. -/
def stripFrac : List Char → Option (List Char)
  | [] => some []
  | c :: more =>
    if c = '.' ∨ c = ',' then
      if (more.takeWhile Char.isDigit) = ([] : List Char) then none
      else some (more.dropWhile Char.isDigit)
    else some (c :: more)

/-- The time-of-day part after the separator: `HH`, `HH:MM[:SS[.f]]` or
`HHMM[SS[.f]]`, returning the clock fields and the offset tail. -/
def parseHMS : List Char → Option (Nat × Nat × Nat × List Char)
  | h1 :: h2 :: rest =>
    if h1.isDigit && h2.isDigit then
      let hh := 10 * dig h1 + dig h2
      if 23 < hh then none
      else
        match rest with
        | ':' :: m1 :: m2 :: rest2 =>
          if m1.isDigit && m2.isDigit then
            let mm := 10 * dig m1 + dig m2
            if 59 < mm then none
            else
              match rest2 with
              | ':' :: s1 :: s2 :: rest3 =>
                if s1.isDigit && s2.isDigit then
                  let ss := 10 * dig s1 + dig s2
                  if 59 < ss then none
                  else (stripFrac rest3).map (fun off => (hh, mm, ss, off))
                else none
              | _ => some (hh, mm, 0, rest2)
          else none
        | m1 :: m2 :: rest2 =>
          if m1.isDigit && m2.isDigit then
            let mm := 10 * dig m1 + dig m2
            if 59 < mm then none
            else
              match rest2 with
              | s1 :: s2 :: rest3 =>
                if s1.isDigit && s2.isDigit then
                  let ss := 10 * dig s1 + dig s2
                  if 59 < ss then none
                  else (stripFrac rest3).map (fun off => (hh, mm, ss, off))
                else some (hh, mm, 0, rest2)
              | _ => some (hh, mm, 0, rest2)
          else some (hh, 0, 0, rest)
        | _ => some (hh, 0, 0, rest)
    else none
  | _ => none

/-- `datetime.fromisoformat` on the modelled grammar: date part, then
optionally one separator character and a time with optional offset. -/
def fromisoChars (cs : List Char) : Option IsoDT :=
  match splitDate cs with
  | none => none
  | some (d, rest) =>
    match rest with
    | [] => some ⟨d, 0, 0, 0, none⟩
    | _ :: timecs =>
      match parseHMS timecs with
      | some (hh, mm, ss, offcs) =>
        (parseOff offcs).map (fun off => ⟨d, hh, mm, ss, off⟩)
      | none => none

/-- Days since 1970-01-01 of a civil date (Hinnant's `days_from_civil`). -/
def daysFromCivil (date : Ymd) : Int :=
  let y : Int := if date.m ≤ 2 then (date.y : Int) - 1 else (date.y : Int)
  let era : Int := Int.fdiv y 400
  let yoe : Nat := (y - era * 400).toNat
  let mp : Nat := if 2 < date.m then date.m - 3 else date.m + 9
  let doy : Nat := (153 * mp + 2) / 5 + date.d - 1
  let doe : Nat := yoe * 365 + yoe / 4 - yoe / 100 + doy
  era * 146097 + (doe : Int) - 719468

/-- Civil date of a day number (Hinnant's `civil_from_days`). -/
def civilFromDays (z : Int) : Int × Nat × Nat :=
  let z' := z + 719468
  let era : Int := Int.fdiv z' 146097
  let doe : Nat := (z' - era * 146097).toNat
  let yoe : Nat := (doe - doe / 1460 + doe / 36524 - doe / 146096) / 365
  let y : Int := (yoe : Int) + era * 400
  let doy : Nat := doe - (365 * yoe + yoe / 4 - yoe / 100)
  let mp : Nat := (5 * doy + 2) / 153
  let d : Nat := doy - (153 * mp + 2) / 5 + 1
  let m : Nat := if mp < 10 then mp + 3 else mp - 9
  (if mp < 10 then y else y + 1, m, d)

/-- `date + timedelta(days=n)` (raising outside the Python date range). -/
def addDays (date : Ymd) (n : Int) : Option Ymd :=
  let c := civilFromDays (daysFromCivil date + n)
  if 1 ≤ c.1 ∧ c.1 ≤ 9999 then some ⟨c.1.toNat, c.2.1, c.2.2⟩ else none

/-- Stage (2)'s timezone handling (db.py lines 105–111): a naive date-time
gets the target timezone attached (`replace`, which does not shift the clock,
so `.date()` is the parsed date); an offset-aware one is converted with
`astimezone` and the date part is taken.  Conversion outside the Python date
range raises (handled by the caller's `try`). -/
def isoToLocal (dt : IsoDT) (tzoff : Int) : Option Ymd :=
  match dt.offMin with
  | none => some dt.date
  | some off =>
    let total : Int :=
      daysFromCivil dt.date * 1440 + dt.hh * 60 + dt.mm - off + tzoff
    let c := civilFromDays (Int.fdiv total 1440)
    if 1 ≤ c.1 ∧ c.1 ≤ 9999 then some ⟨c.1.toNat, c.2.1, c.2.2⟩ else none

/-- The three-stage `try` chain shared by `_parse_to_date` and
`_parse_text_to_date`, over the stripped character list: (1) `strptime`
`%Y-%m-%d`; (2) `fromisoformat` plus timezone handling, any failure falling
through; (3) `strptime` on the first ten characters (`s[:10]`), whose
failure is the terminal error (`none`). -/
def pyStages (cs : List Char) (tzoff : Int) : Option Ymd :=
  match strptimeYMD cs with
  | some d => some d
  | none =>
    match fromisoChars cs with
    | some dt =>
      match isoToLocal dt tzoff with
      | some d => some d
      | none => strptimeYMD (cs.take 10)
    | none => strptimeYMD (cs.take 10)

/-- `str.strip()` on the character list: drop leading and trailing
whitespace (ASCII whitespace; other Unicode space characters are outside the
modelled scope). -/
def pyStrip (cs : List Char) : List Char :=
  ((cs.dropWhile Char.isWhitespace).reverse.dropWhile Char.isWhitespace).reverse

/-- `_parse_text_to_date(s, tz)` (db.py lines 97–113). -/
def parse_text_to_date (s : String) (tzoff : Int) : Option Ymd :=
  pyStages (pyStrip s.data) tzoff

/-- `_parse_to_date(s, tz)` (inventory_tool.py lines 65–83): `None` and the
empty string are falsy, resolving to today in the target timezone. -/
def parse_to_date (s? : Option String) (tzoff : Int) (today : Ymd) :
    Option Ymd :=
  match s? with
  | none => some today
  | some s => if s = "" then some today else pyStages (pyStrip s.data) tzoff

/-- The spec's precedence pipeline, stated from its words: stage (1) is the
*exact* `YYYY-MM-DD` parser; stages (2) and (3) are as in the code (the
fallback stage (3) parses the first ten characters as `%Y-%m-%d`). -/
def specStages (cs : List Char) (tzoff : Int) : Option Ymd :=
  match exactYMDChars cs with
  | some d => some d
  | none =>
    match fromisoChars cs with
    | some dt =>
      match isoToLocal dt tzoff with
      | some d => some d
      | none => strptimeYMD (cs.take 10)
    | none => strptimeYMD (cs.take 10)

/-- The spec's normalizer contract: an absent (or empty, hence falsy) value
resolves to today; otherwise the three-stage precedence applies. -/
def specNormalize (s? : Option String) (tzoff : Int) (today : Ymd) :
    Option Ymd :=
  match s? with
  | none => some today
  | some s => if s = "" then some today else specStages (pyStrip s.data) tzoff

/-! ### Text-level model: the migration pass and the cascade's failure path

Rows here carry their dates as the stored text, as the database does.  The
`_normalize_existing_rows_to_date_only` pass (db.py lines 116–127) selects
rows by the `WHERE length(...) != 10 OR instr(..., 'T') > 0` predicate and
rewrites both date columns through the parser; a parse failure raises, so the
whole pass yields no committed change (`none`): the per-row `UPDATE`s are
only committed by the single `conn.commit()` after the loop.

`update_default_and_recalc_items` is also re-embedded at this granularity
(`update_default_and_recalc_items_text`) because its failure behaviour
depends on the stored text: `upsert_default_days` commits on its own (db.py
line 146) *before* the recalculation loop parses each selected row's
`in_at`; a parse (or date-range) failure there aborts the loop, whose staged
updates are never committed — but the already-committed default upsert
survives. -/

/-- Sequence a row-wise fallible action over a list (`Option`-valued
`mapM`): the collected results, or `none` as soon as one action fails. -/
def mapRows {A B : Type} (f : A → Option B) : List A → Option (List B)
  | [] => some []
  | a :: l =>
    match f a, mapRows f l with
    | some b, some bs => some (b :: bs)
    | _, _ => none

/-- One digit of `strftime` output. -/
def digitChar (n : Nat) : Char :=
  match n with
  | 0 => '0' | 1 => '1' | 2 => '2' | 3 => '3' | 4 => '4'
  | 5 => '5' | 6 => '6' | 7 => '7' | 8 => '8' | _ => '9'

/-- Two-digit zero-padded field (`%m`, `%d` are always zero-padded). -/
def pad2 (n : Nat) : List Char := [digitChar (n / 10 % 10), digitChar (n % 10)]

/-- Four decimal digits; the rendering of `%Y` for years 1000–9999. -/
def pad4 (n : Nat) : List Char :=
  [digitChar (n / 1000 % 10), digitChar (n / 100 % 10),
    digitChar (n / 10 % 10), digitChar (n % 10)]

/-- The `%Y` field as CPython's `strftime` renders it on glibc: the year's
decimal digits *without* zero-padding, so years below 1000 produce fewer
than four characters (`date(202, 1, 5).strftime("%Y")` is `"202"`).  Years
here are ≥ 1 and ≤ 9999 (the Python date range). -/
def yearChars (y : Nat) : List Char :=
  if y < 10 then [digitChar y]
  else if y < 100 then [digitChar (y / 10), digitChar (y % 10)]
  else if y < 1000 then
    [digitChar (y / 100), digitChar (y / 10 % 10), digitChar (y % 10)]
  else pad4 y

/-- `_to_date_str(d)` = `d.strftime("%Y-%m-%d")` (db.py lines 93–94):
unpadded `%Y`, zero-padded `%m` and `%d`. -/
def to_date_str (d : Ymd) : String :=
  ⟨yearChars d.y ++ '-' :: (pad2 d.m ++ '-' :: pad2 d.d)⟩

/-- An `inventory` row at text granularity (only the columns the migration
pass and the recalculation cascade read or write). -/
structure ItemRow where
  id : Nat
  name : String
  in_at : String
  exp_at : String
  exp_source : ExpSource
  updated_at : Nat
deriving DecidableEq, Repr

/-- The migration's selection predicate (db.py lines 118–119):
`length(in_at) != 10 OR length(exp_at) != 10 OR instr(in_at,'T')>0 OR
instr(exp_at,'T')>0`. -/
def needsFix (r : ItemRow) : Bool :=
  r.in_at.length != 10 || r.exp_at.length != 10 ||
    r.in_at.data.contains 'T' || r.exp_at.data.contains 'T'

/-- The per-row action of the migration loop (db.py lines 123–126): a
selected row has both date columns re-parsed and rewritten; an unselected row
is untouched.  `none` models the exception a failed parse raises. -/
def fixRow (tzoff : Int) (r : ItemRow) : Option ItemRow :=
  if needsFix r then
    match parse_text_to_date r.in_at tzoff, parse_text_to_date r.exp_at tzoff
    with
    | some din, some dex =>
      some { r with in_at := to_date_str din, exp_at := to_date_str dex }
    | _, _ => none
  else some r

/-- `_normalize_existing_rows_to_date_only` (db.py lines 116–127): the
committed table after the pass, or `none` when a row failed to parse (the
loop raises before its terminal `conn.commit()`, so nothing is committed). -/
def normalize_existing_rows_to_date_only (tzoff : Int) (rows : List ItemRow) :
    Option (List ItemRow) :=
  mapRows (fixRow tzoff) rows

/-- `update_default_and_recalc_items` (db.py lines 172–183) at text
granularity, making commit boundaries explicit.  The first component is the
returned count (`none` = the call raised); the rest is the committed state.
`new_days ≤ 0` violates `CHECK(days > 0)` inside `upsert_default_days`, so
nothing at all is committed.  Otherwise the upsert commits, the matching rows
are selected, and each row's `in_at` is parsed and shifted; a failure raises
with the staged row updates uncommitted, leaving the committed inventory
unchanged — under the already-committed new default. -/
def update_default_and_recalc_items_text (defaults : List ShelfLifeDefault)
    (inv : List ItemRow) (name : String) (new_days : Int) (now : Nat)
    (tzoff : Int) :
    Option Nat × List ShelfLifeDefault × List ItemRow :=
  if new_days ≤ 0 then (none, defaults, inv)
  else
    let defs2 := upsert_default_days defaults name new_days now
    let rows := inv.filter
      (fun b => b.name == name && b.exp_source == ExpSource.default)
    match mapRows (fun r => (parse_text_to_date r.in_at tzoff).bind
        (fun d0 => (addDays d0 new_days).map
          (fun d2 => (r.id, to_date_str d2)))) rows with
    | none => (none, defs2, inv)
    | some acts =>
      (some rows.length, defs2,
        inv.map fun b =>
          match acts.find? (fun a => a.1 == b.id) with
          | some a => { b with exp_at := a.2, updated_at := now }
          | none => b)

/-- A stored row whose `in_at` text defeats every parser stage. -/
def badRow : ItemRow :=
  ⟨1, "milk", "notadate!!", "2024-01-05", ExpSource.default, 0⟩

/-- A legacy row: lenient `in_at`, ISO date-time `exp_at` with offset. -/
def legacyRow : ItemRow :=
  ⟨1, "milk", "2024-1-9", "2024-01-05T12:30:00+08:00", ExpSource.user, 0⟩

/-- `legacyRow` after normalization. -/
def legacyFixed : ItemRow :=
  ⟨1, "milk", "2024-01-09", "2024-01-05", ExpSource.user, 0⟩

/-- An already-canonical row the migration must not touch. -/
def cleanRow : ItemRow :=
  ⟨2, "egg", "2024-01-02", "2024-01-09", ExpSource.default, 0⟩

/-- Is a parse result's year large enough for `%Y` to render four digits? -/
def yearOK (o : Option Ymd) : Bool :=
  match o with
  | some d => decide (1000 ≤ d.y)
  | none => true

/-- A legacy row whose stored `in_at` parses to a year below 1000. -/
def oldYearRow : ItemRow :=
  ⟨1, "milk", "0202-01-05T00:00:00", "2024-01-05", ExpSource.default, 0⟩

/-- `oldYearRow` after one migration run: `strftime` rendered the year 202
without padding, leaving a 9-character, non-canonical date text. -/
def oldYearFixed : ItemRow :=
  ⟨1, "milk", "202-01-05", "2024-01-05", ExpSource.default, 0⟩

lemma consumeLoop_sum (rows : List Item) (rem : ℚ) :
    sumConsumed (consumeLoop rows rem).1 + (consumeLoop rows rem).2.2 = rem := by
  induction rows generalizing rem with
  | nil => simp [consumeLoop, sumConsumed]
  | cons r rs ih =>
    by_cases h1 : rem ≤ 0
    · simp [consumeLoop, h1, sumConsumed]
    · by_cases h2 : r.quantity ≤ rem + eps
      · have := ih (rem - r.quantity)
        simp only [consumeLoop, if_neg h1, if_pos h2, sumConsumed,
          List.map_cons, List.sum_cons] at *
        linarith
      · have := ih 0
        simp only [consumeLoop, if_neg h1, if_neg h2, sumConsumed,
          List.map_cons, List.sum_cons] at *
        linarith

lemma consumeLoop_rem_ge (rows : List Item) (rem : ℚ) (h : -eps ≤ rem) :
    -eps ≤ (consumeLoop rows rem).2.2 := by
  induction rows generalizing rem with
  | nil => simpa [consumeLoop]
  | cons r rs ih =>
    by_cases h1 : rem ≤ 0
    · simpa [consumeLoop, h1]
    · by_cases h2 : r.quantity ≤ rem + eps
      · simp only [consumeLoop, if_neg h1, if_pos h2]
        exact ih (rem - r.quantity) (by linarith)
      · simp only [consumeLoop, if_neg h1, if_neg h2]
        exact ih 0 (by norm_num [eps])

lemma consumeLoop_deleted (rows : List Item) (rem : ℚ) :
    ∀ d ∈ (consumeLoop rows rem).1, d.deleted = true →
      ∃ r ∈ rows, r.id = d.row_id ∧ d.consumed = r.quantity := by
  induction rows generalizing rem with
  | nil => simp [consumeLoop]
  | cons r rs ih =>
    by_cases h1 : rem ≤ 0
    · simp [consumeLoop, h1]
    · by_cases h2 : r.quantity ≤ rem + eps
      · simp only [consumeLoop, if_neg h1, if_pos h2, List.mem_cons]
        rintro d (rfl | hd) hdel
        · exact ⟨r, Or.inl rfl, rfl, rfl⟩
        · obtain ⟨r', hr', hid, hc⟩ := ih (rem - r.quantity) d hd hdel
          exact ⟨r', Or.inr hr', hid, hc⟩
      · simp only [consumeLoop, if_neg h1, if_neg h2, List.mem_cons]
        rintro d (rfl | hd) hdel
        · simp at hdel
        · obtain ⟨r', hr', hid, hc⟩ := ih 0 d hd hdel
          exact ⟨r', Or.inr hr', hid, hc⟩

/-- The details record a prefix of the fetched rows, in order. -/
lemma consumeLoop_take_ids (rows : List Item) (rem : ℚ) :
    (consumeLoop rows rem).1.map (fun d => d.row_id) =
      (rows.take (consumeLoop rows rem).1.length).map (fun r => r.id) := by
  induction rows generalizing rem with
  | nil => simp [consumeLoop]
  | cons r rs ih =>
    by_cases h1 : rem ≤ 0
    · simp [consumeLoop, h1]
    · by_cases h2 : r.quantity ≤ rem + eps
      · simp only [consumeLoop, if_neg h1, if_pos h2, List.map_cons,
          List.length_cons, List.take_succ_cons]
        rw [ih (rem - r.quantity)]
      · have h0 : consumeLoop rs 0 = ([], [], 0) := by
          cases rs <;> simp [consumeLoop]
        simp [consumeLoop, if_neg h1, if_neg h2, h0]

lemma consumeLoop_acts_ids (rows : List Item) (rem : ℚ) :
    (consumeLoop rows rem).2.1.map (fun a => a.1) =
      (consumeLoop rows rem).1.map (fun d => d.row_id) := by
  induction rows generalizing rem with
  | nil => simp [consumeLoop]
  | cons r rs ih =>
    by_cases h1 : rem ≤ 0
    · simp [consumeLoop, h1]
    · by_cases h2 : r.quantity ≤ rem + eps
      · simp only [consumeLoop, if_neg h1, if_pos h2, List.map_cons]
        rw [ih (rem - r.quantity)]
      · simp only [consumeLoop, if_neg h1, if_neg h2, List.map_cons]
        rw [ih 0]

/-- Every staged `UPDATE` writes a strictly positive quantity. -/
lemma consumeLoop_update_pos (rows : List Item) (rem : ℚ) :
    ∀ a ∈ (consumeLoop rows rem).2.1, ∀ q, a.2 = some q → 0 < q := by
  induction rows generalizing rem with
  | nil => simp [consumeLoop]
  | cons r rs ih =>
    by_cases h1 : rem ≤ 0
    · simp [consumeLoop, h1]
    · by_cases h2 : r.quantity ≤ rem + eps
      · simp only [consumeLoop, if_neg h1, if_pos h2, List.mem_cons]
        rintro a (rfl | ha) q hq
        · simp at hq
        · exact ih (rem - r.quantity) a ha q hq
      · simp only [consumeLoop, if_neg h1, if_neg h2, List.mem_cons]
        rintro a (rfl | ha) q hq
        · simp only at hq
          have : r.quantity - rem = q := by
            simpa using congrArg (fun o => o.getD 0) hq
          have heps : (0:ℚ) < eps := by norm_num [eps]
          linarith
        · exact ih 0 a ha q hq

lemma consumeLoop_consumed_le (rows : List Item) (rem : ℚ)
    (hq : ∀ r ∈ rows, 0 ≤ r.quantity) :
    sumConsumed (consumeLoop rows rem).1 ≤ (rows.map (fun r => r.quantity)).sum := by
  induction rows generalizing rem with
  | nil => simp [consumeLoop, sumConsumed]
  | cons r rs ih =>
    have hr0 : 0 ≤ r.quantity := hq r (List.mem_cons_self r rs)
    have hrs : ∀ x ∈ rs, 0 ≤ x.quantity := fun x hx => hq x (List.mem_cons_of_mem r hx)
    have hsum : 0 ≤ (rs.map (fun x => x.quantity)).sum :=
      List.sum_nonneg (by simpa using hrs)
    by_cases h1 : rem ≤ 0
    · simp only [consumeLoop, if_pos h1, sumConsumed, List.map_nil, List.sum_nil,
        List.map_cons, List.sum_cons]
      linarith
    · by_cases h2 : r.quantity ≤ rem + eps
      · have := ih (rem - r.quantity) hrs
        simp only [consumeLoop, if_neg h1, if_pos h2, sumConsumed,
          List.map_cons, List.sum_cons] at *
        linarith
      · have h0 : consumeLoop rs 0 = ([], [], 0) := by
          cases rs <;> simp [consumeLoop]
        simp only [consumeLoop, if_neg h1, if_neg h2, h0, sumConsumed,
          List.map_cons, List.map_nil, List.sum_cons, List.sum_nil, List.sum_cons]
        simp only [not_le] at h2
        have heps : (0:ℚ) < eps := by norm_num [eps]
        linarith

lemma applyActs_nil (now : Nat) (state : List Item) :
    applyActs [] now state = state := by
  simp [applyActs]

lemma applyActs_not_touched (acts : List (Nat × Option ℚ)) (now : Nat)
    (state : List Item) (b : Item) (hb : b ∈ state)
    (hid : b.id ∉ acts.map (fun a => a.1)) :
    b ∈ applyActs acts now state := by
  have hfind : acts.find? (fun a => a.1 == b.id) = none := by
    rw [List.find?_eq_none]
    intro a ha
    simp only [beq_iff_eq]
    intro h
    exact hid (h ▸ List.mem_map_of_mem (fun a => a.1) ha)
  unfold applyActs
  exact List.mem_filterMap.mpr ⟨b, hb, by rw [hfind]⟩

lemma applyActs_mem (acts : List (Nat × Option ℚ)) (now : Nat)
    (state : List Item) (b' : Item) (hb' : b' ∈ applyActs acts now state) :
    b' ∈ state ∨ ∃ a ∈ acts, ∃ q, a.2 = some q ∧ b'.quantity = q := by
  unfold applyActs at hb'
  obtain ⟨b, hb, hmap⟩ := List.mem_filterMap.mp hb'
  rcases hfind : acts.find? (fun a => a.1 == b.id) with _ | ⟨aid, act⟩
  · rw [hfind] at hmap
    simp only [Option.some_inj] at hmap
    exact Or.inl (hmap ▸ hb)
  · rw [hfind] at hmap
    have hmem := List.mem_of_find?_eq_some hfind
    cases act with
    | none => simp at hmap
    | some q =>
      simp only [Option.some_inj] at hmap
      exact Or.inr ⟨(aid, some q), hmem, q, rfl, by rw [← hmap]⟩

lemma consumeRows_mem (state : List Item) (name : String) (r : Item) :
    r ∈ consumeRows state name ↔ r ∈ state ∧ r.name = name := by
  unfold consumeRows
  rw [(List.perm_insertionSort keyLE _).mem_iff, List.mem_filter]
  simp

lemma consumeRows_sorted (state : List Item) (name : String) :
    List.Sorted keyLE (consumeRows state name) :=
  List.sorted_insertionSort keyLE _

lemma consumeRows_sum (state : List Item) (name : String) :
    ((consumeRows state name).map (fun r => r.quantity)).sum =
      ((state.filter (fun b => b.name == name)).map (fun r => r.quantity)).sum :=
  ((List.perm_insertionSort keyLE _).map (fun r => r.quantity)).sum_eq

lemma consumeLoop_of_nonpos (rows : List Item) (rem : ℚ) (h : rem ≤ 0) :
    consumeLoop rows rem = ([], [], rem) := by
  cases rows <;> simp [consumeLoop, h]

/-- C10: a consume call with requested quantity ≤ 0 touches nothing: the
outcome echoes the request, reports `unfulfilled = 0` with empty details, and
the table is unchanged. -/
theorem consume_nonpos_noop (state : List Item) (name : String) (qty : ℚ)
    (now : Nat) (h : qty ≤ 0) :
    consume state name qty now =
      ({ requested := qty, unfulfilled := 0, details := [] }, state) := by
  have hloop := consumeLoop_of_nonpos (consumeRows state name) qty h
  simp [consume, hloop, applyActs_nil, max_eq_left h]

theorem consume_nonpos_noop_witness :
    (-1 : ℚ) ≤ 0 ∧
      consume wItems "milk" (-1) 5 =
        ({ requested := -1, unfulfilled := 0, details := [] }, wItems) :=
  ⟨by norm_num, consume_nonpos_noop wItems "milk" (-1) 5 (by norm_num)⟩

/-- C1 (amended): for a positive request, every deleted detail's `consumed`
equals the batch's pre-call quantity exactly, and `sum(detail.consumed)` lies
between `requested − unfulfilled` and `requested − unfulfilled + ε` (the sum
can exceed `requested − unfulfilled` by up to `ε = 1e-9` when the
ε-tolerant deletion branch overshoots the request). -/
theorem consume_accounting (state : List Item) (name : String) (qty : ℚ)
    (now : Nat) (hq : 0 < qty) :
    (∀ d ∈ (consume state name qty now).1.details, d.deleted = true →
      ∃ b ∈ state, b.name = name ∧ b.id = d.row_id ∧ d.consumed = b.quantity) ∧
    (consume state name qty now).1.requested -
        (consume state name qty now).1.unfulfilled ≤
      sumConsumed (consume state name qty now).1.details ∧
    sumConsumed (consume state name qty now).1.details ≤
      (consume state name qty now).1.requested -
        (consume state name qty now).1.unfulfilled + eps := by
  have heps : (0 : ℚ) < eps := by norm_num [eps]
  have hsum := consumeLoop_sum (consumeRows state name) qty
  have hge := consumeLoop_rem_ge (consumeRows state name) qty (by linarith)
  have h1 : (consume state name qty now).1.details =
      (consumeLoop (consumeRows state name) qty).1 := rfl
  have h2 : (consume state name qty now).1.requested = qty := rfl
  have h3 : (consume state name qty now).1.unfulfilled =
      max 0 (consumeLoop (consumeRows state name) qty).2.2 := rfl
  refine ⟨?_, ?_, ?_⟩
  · intro d hd hdel
    rw [h1] at hd
    obtain ⟨r, hr, hid, hc⟩ :=
      consumeLoop_deleted (consumeRows state name) qty d hd hdel
    obtain ⟨hrs, hrname⟩ := (consumeRows_mem state name r).mp hr
    exact ⟨r, hrs, hrname, hid, hc⟩
  · rw [h1, h2, h3]
    have := le_max_right (0 : ℚ) (consumeLoop (consumeRows state name) qty).2.2
    linarith
  · rw [h1, h2, h3]
    have hmax : max 0 (consumeLoop (consumeRows state name) qty).2.2 ≤
        (consumeLoop (consumeRows state name) qty).2.2 + eps :=
      max_le (by linarith) (by linarith)
    linarith

theorem consume_accounting_witness :
    (0 : ℚ) < 5/2 ∧
      ((∀ d ∈ (consume wItems "milk" (5/2) 5).1.details, d.deleted = true →
        ∃ b ∈ wItems, b.name = "milk" ∧ b.id = d.row_id ∧
          d.consumed = b.quantity) ∧
      (consume wItems "milk" (5/2) 5).1.requested -
          (consume wItems "milk" (5/2) 5).1.unfulfilled ≤
        sumConsumed (consume wItems "milk" (5/2) 5).1.details ∧
      sumConsumed (consume wItems "milk" (5/2) 5).1.details ≤
        (consume wItems "milk" (5/2) 5).1.requested -
          (consume wItems "milk" (5/2) 5).1.unfulfilled + eps) :=
  ⟨by norm_num, consume_accounting wItems "milk" (5/2) 5 (by norm_num)⟩

/-- C1 counterexample: with one batch holding `1 + 1e-9` and a request of 1,
the ε-tolerant branch deletes the batch, so `sum(detail.consumed) = 1 + 1e-9`
while `requested − unfulfilled = 1`: the claimed exact sum law fails. -/
theorem consume_sum_law_cex :
    sumConsumed (consume [epsItem] "a" 1 5).1.details = 1 + eps ∧
    (consume [epsItem] "a" 1 5).1.requested -
        (consume [epsItem] "a" 1 5).1.unfulfilled = 1 ∧
    (1 + eps : ℚ) ≠ 1 := by
  refine ⟨?_, ?_, by norm_num [eps]⟩ <;>
    norm_num +decide [sumConsumed, consume, consumeRows, consumeLoop,
      applyActs, epsItem, eps, List.insertionSort, List.orderedInsert, keyLE]

/-- C2 (amended): consumption visits the batches of the name in ascending
`(exp_at, id)` order — the order actually requested from SQLite — touching a
prefix of that ordered list; every batch whose id is not among the visited
details (in particular every batch after the stopping point) is left
completely unchanged. -/
theorem consume_visits_in_order (state : List Item) (name : String) (qty : ℚ)
    (now : Nat) :
    (∃ k, (consume state name qty now).1.details.map (fun d => d.row_id) =
      ((consumeRows state name).take k).map (fun r => r.id)) ∧
    List.Sorted keyLE (consumeRows state name) ∧
    (∀ b ∈ state,
      b.id ∉ (consume state name qty now).1.details.map (fun d => d.row_id) →
      b ∈ (consume state name qty now).2) := by
  have h1 : (consume state name qty now).1.details =
      (consumeLoop (consumeRows state name) qty).1 := rfl
  refine ⟨⟨(consumeLoop (consumeRows state name) qty).1.length, ?_⟩,
    consumeRows_sorted state name, ?_⟩
  · rw [h1]
    exact consumeLoop_take_ids (consumeRows state name) qty
  · intro b hb hid
    apply applyActs_not_touched _ now state b hb
    rw [consumeLoop_acts_ids]
    rw [h1] at hid
    exact hid

theorem consume_visits_in_order_witness :
    tieItemB ∈ [tieItemA, tieItemB] ∧
    tieItemB.id ∉
      (consume [tieItemA, tieItemB] "a" 1 5).1.details.map (fun d => d.row_id) ∧
    tieItemB ∈ (consume [tieItemA, tieItemB] "a" 1 5).2 :=
  ⟨by decide,
    by norm_num +decide [consume, consumeRows, consumeLoop, applyActs,
      tieItemA, tieItemB, eps, List.insertionSort, List.orderedInsert, keyLE],
    (consume_visits_in_order [tieItemA, tieItemB] "a" 1 5).2.2 tieItemB
      (by decide)
      (by norm_num +decide [consume, consumeRows, consumeLoop, applyActs,
        tieItemA, tieItemB, eps, List.insertionSort, List.orderedInsert,
        keyLE])⟩

/-- C2 counterexample: with two same-expiry batches whose arrival order
disagrees with their id order (id 1 arrived day 3, id 2 arrived day 1), a
consumption of both visits id 1 before id 2 — the `(exp_at, in_at, id)`
triples of the visit order are not ascending, because the engine's query
orders by `(date(exp_at), id)` without `in_at`. -/
theorem consume_visit_order_cex :
    visitedTriples [tieItemA, tieItemB]
        (consume [tieItemA, tieItemB] "a" 2 7).1 = [(5, 3, 1), (5, 1, 2)] ∧
    ¬ List.Sorted specTripleLE [((5 : Int), (3 : Int), (1 : Nat)), (5, 1, 2)] := by
  refine ⟨?_, by decide⟩
  norm_num +decide [visitedTriples, consume, consumeRows, consumeLoop,
    applyActs, tieItemA, tieItemB, eps, List.insertionSort, List.orderedInsert,
    keyLE, List.find?, List.filterMap]

/-- C3: a consume or discard request exceeding the name's total stock
succeeds with `unfulfilled > 0`, and batches of any other name are never
touched. -/
theorem consume_discard_shortfall (state : List Item) (name : String)
    (qty : ℚ) (now : Nat)
    (hnn : ∀ b ∈ state, 0 ≤ b.quantity)
    (hnd : (state.map (fun b => b.id)).Nodup)
    (hst : ((state.filter (fun b => b.name == name)).map
      (fun b => b.quantity)).sum < qty) :
    (0 < (consume state name qty now).1.unfulfilled ∧
      ∀ b ∈ state, b.name ≠ name → b ∈ (consume state name qty now).2) ∧
    (0 < (discard state name qty now).1.unfulfilled ∧
      ∀ b ∈ state, b.name ≠ name → b ∈ (discard state name qty now).2) := by
  have key : 0 < (consume state name qty now).1.unfulfilled ∧
      ∀ b ∈ state, b.name ≠ name → b ∈ (consume state name qty now).2 := by
    constructor
    · have hsum := consumeLoop_sum (consumeRows state name) qty
      have hrows_nn : ∀ r ∈ consumeRows state name, 0 ≤ r.quantity :=
        fun r hr => hnn r ((consumeRows_mem state name r).mp hr).1
      have hle := consumeLoop_consumed_le (consumeRows state name) qty hrows_nn
      rw [consumeRows_sum] at hle
      have hrem : 0 < (consumeLoop (consumeRows state name) qty).2.2 := by
        linarith
      have hu : (consume state name qty now).1.unfulfilled =
          max 0 (consumeLoop (consumeRows state name) qty).2.2 := rfl
      rw [hu]
      exact lt_max_of_lt_right hrem
    · intro b hb hbn
      apply applyActs_not_touched _ now state b hb
      rw [consumeLoop_acts_ids, consumeLoop_take_ids]
      intro hmem
      obtain ⟨r, hr, hrid⟩ := List.mem_map.mp hmem
      have hr' : r ∈ consumeRows state name := List.mem_of_mem_take hr
      obtain ⟨hrs, hrname⟩ := (consumeRows_mem state name r).mp hr'
      have hrb : r = b := List.inj_on_of_nodup_map hnd hrs hb hrid
      exact hbn (hrb ▸ hrname)
  exact ⟨key, key⟩

theorem consume_discard_shortfall_witness :
    (∀ b ∈ wItems, 0 ≤ b.quantity) ∧
    (wItems.map (fun b => b.id)).Nodup ∧
    ((wItems.filter (fun b => b.name == "milk")).map
      (fun b => b.quantity)).sum < 10 ∧
    ((0 < (consume wItems "milk" 10 5).1.unfulfilled ∧
      ∀ b ∈ wItems, b.name ≠ "milk" → b ∈ (consume wItems "milk" 10 5).2) ∧
    (0 < (discard wItems "milk" 10 5).1.unfulfilled ∧
      ∀ b ∈ wItems, b.name ≠ "milk" → b ∈ (discard wItems "milk" 10 5).2)) :=
  ⟨by decide, by decide, by norm_num +decide [wItems],
    consume_discard_shortfall wItems "milk" 10 5 (by decide) (by decide)
      (by norm_num +decide [wItems])⟩

lemma find?_pair_of_nodup (rows : List Item)
    (hnd : (rows.map (fun r => r.id)).Nodup) (b : Item) (hb : b ∈ rows) :
    (rows.map (fun r => (r.id, r.in_at))).find? (fun a => a.1 == b.id) =
      some (b.id, b.in_at) := by
  induction rows with
  | nil => cases hb
  | cons r rs ih =>
    simp only [List.map_cons, List.nodup_cons] at hnd
    by_cases h : r.id = b.id
    · have hbr : b = r := by
        rcases List.mem_cons.mp hb with rfl | hbs
        · rfl
        · exact absurd (h ▸ List.mem_map_of_mem (fun x => x.id) hbs) hnd.1
      subst hbr
      simp [List.find?_cons_of_pos]
    · rw [List.map_cons, List.find?_cons_of_neg _ (by simpa using h)]
      rcases List.mem_cons.mp hb with rfl | hbs
      · exact absurd rfl h
      · exact ih hnd.2 hbs

lemma find?_pair_none (rows : List Item) (b : Item)
    (hnotin : b.id ∉ rows.map (fun r => r.id)) :
    (rows.map (fun r => (r.id, r.in_at))).find? (fun a => a.1 == b.id) =
      none := by
  rw [List.find?_eq_none]
  intro a ha
  obtain ⟨r, hr, rfl⟩ := List.mem_map.mp ha
  simp only [beq_iff_eq]
  intro h
  exact hnotin (h ▸ List.mem_map_of_mem (fun x => x.id) hr)

/-- C4: `SetShelfLife(name, new_days)` (with a positive `new_days` and a
well-formed table with distinct row ids) upserts the default and rewrites
exactly the rows with that name and `exp_source = 'default'`, giving each
`exp_at = in_at + new_days` and `updated_at = now`, returning their count;
every other row — in particular every `exp_source = 'user'` row and every row
of another name — keeps all its fields, including `exp_at` and `updated_at`. -/
theorem set_shelf_life_recalc (defaults : List ShelfLifeDefault)
    (inv : List Item) (name : String) (days : Int) (now : Nat)
    (hd : 0 < days) (hnd : (inv.map (fun b => b.id)).Nodup) :
    update_default_and_recalc_items defaults inv name days now =
      some ((inv.filter
          (fun b => b.name == name && b.exp_source == ExpSource.default)).length,
        upsert_default_days defaults name days now,
        inv.map fun b =>
          if b.name == name && b.exp_source == ExpSource.default then
            { b with exp_at := b.in_at + days, updated_at := now }
          else b) := by
  unfold update_default_and_recalc_items
  rw [if_neg (not_le.mpr hd)]
  refine congrArg some (congrArg _ (congrArg _ ?_))
  apply List.map_congr_left
  intro b hb
  by_cases hp : (b.name == name && b.exp_source == ExpSource.default) = true
  · have hbrows : b ∈ inv.filter
        (fun b => b.name == name && b.exp_source == ExpSource.default) :=
      List.mem_filter.mpr ⟨hb, hp⟩
    have hsub : (inv.filter
        (fun b => b.name == name && b.exp_source == ExpSource.default)).Sublist
          inv :=
      List.filter_sublist _
    have hrowsnd : ((inv.filter
        (fun b => b.name == name && b.exp_source == ExpSource.default)).map
          (fun b => b.id)).Nodup :=
      hnd.sublist (hsub.map (fun b => b.id))
    have hrowsnd' : ((inv.filter
        (fun b => b.name == name && b.exp_source == ExpSource.default)).map
          (fun r => r.id)).Nodup := hrowsnd
    rw [find?_pair_of_nodup _ hrowsnd' b hbrows, hp]
    simp
  · have hnotin : b.id ∉ (inv.filter
        (fun b => b.name == name && b.exp_source == ExpSource.default)).map
          (fun r => r.id) := by
      intro hmem
      obtain ⟨r, hr, hrid⟩ := List.mem_map.mp hmem
      obtain ⟨hrinv, hrp⟩ := List.mem_filter.mp hr
      have : r = b := List.inj_on_of_nodup_map hnd hrinv hb hrid
      exact hp (this ▸ hrp)
    rw [find?_pair_none _ b hnotin, if_neg hp]

theorem set_shelf_life_recalc_witness :
    (0 : Int) < 10 ∧ (wItems.map (fun b => b.id)).Nodup ∧
    update_default_and_recalc_items wDefaults wItems "milk" 10 5 =
      some ((wItems.filter
          (fun b => b.name == "milk" && b.exp_source == ExpSource.default)).length,
        upsert_default_days wDefaults "milk" 10 5,
        wItems.map fun b =>
          if b.name == "milk" && b.exp_source == ExpSource.default then
            { b with exp_at := b.in_at + 10, updated_at := 5 }
          else b) :=
  ⟨by decide, by decide,
    set_shelf_life_recalc wDefaults wItems "milk" 10 5 (by decide) (by decide)⟩

/-- C5 (amended): every operation preserves `quantity ≥ 0`; consume and
discard never retain a batch they touched at quantity zero (a row they leave
behind is either a pre-existing row, unchanged, or has strictly positive
quantity — a row depleted to the tolerance is deleted); expiry updates and
the default cascade never change any quantity.  (The `add` action, however,
accepts `quantity = 0` and inserts a zero-quantity batch — see the
counterexample — so `add` only guarantees non-negativity.) -/
theorem quantity_invariant :
    (∀ (state : List Item) (name : String) (qty : ℚ) (now : Nat),
      (∀ b ∈ state, 0 ≤ b.quantity) →
      ∀ b' ∈ (consume state name qty now).2,
        0 ≤ b'.quantity ∧ (b' ∈ state ∨ 0 < b'.quantity)) ∧
    (∀ (state : List Item) (name : String) (qty : ℚ) (now : Nat),
      (∀ b ∈ state, 0 ≤ b.quantity) →
      ∀ b' ∈ (discard state name qty now).2,
        0 ≤ b'.quantity ∧ (b' ∈ state ∨ 0 < b'.quantity)) ∧
    (∀ (defaults : List ShelfLifeDefault) (inv : List Item)
      (name? : Option String) (quantity? : Option ℚ) (unit? : Option String)
      (in_at? exp_days? exp_at? : Option Int) (today : Int) (now nextId : Nat),
      (∀ b ∈ inv, 0 ≤ b.quantity) →
      ∀ b' ∈ (addAction defaults inv name? quantity? unit? in_at? exp_days?
        exp_at? today now nextId).2.2, 0 ≤ b'.quantity) ∧
    (∀ (state : List Item) (item_id : Nat) (new_exp : Int) (now : Nat)
      (src : ExpSource),
      ((update_item_exp_by_id state item_id new_exp now src).2).map
        (fun b => b.quantity) = state.map (fun b => b.quantity)) ∧
    (∀ (defaults : List ShelfLifeDefault) (inv : List Item) (name : String)
      (days : Int) (now : Nat) (cnt : Nat) (defs2 : List ShelfLifeDefault)
      (inv2 : List Item),
      update_default_and_recalc_items defaults inv name days now =
        some (cnt, defs2, inv2) →
      inv2.map (fun b => b.quantity) = inv.map (fun b => b.quantity)) := by
  have hcons : ∀ (state : List Item) (name : String) (qty : ℚ) (now : Nat),
      (∀ b ∈ state, 0 ≤ b.quantity) →
      ∀ b' ∈ (consume state name qty now).2,
        0 ≤ b'.quantity ∧ (b' ∈ state ∨ 0 < b'.quantity) := by
    intro state name qty now hnn b' hb'
    have hb'' : b' ∈ applyActs (consumeLoop (consumeRows state name) qty).2.1
        now state := hb'
    rcases applyActs_mem _ now state b' hb'' with hmem | ⟨a, ha, q, haq, hbq⟩
    · exact ⟨hnn b' hmem, Or.inl hmem⟩
    · have hpos := consumeLoop_update_pos (consumeRows state name) qty a ha q haq
      rw [hbq] at *
      exact ⟨le_of_lt hpos, Or.inr hpos⟩
  refine ⟨hcons, hcons, ?_, ?_, ?_⟩
  · intro defaults inv name? quantity? unit? in_at? exp_days? exp_at? today
      now nextId hnn b' hb'
    match name?, quantity? with
    | none, _ => exact hnn b' hb'
    | some name, none => exact hnn b' hb'
    | some name, some qty =>
      simp only [addAction] at hb'
      by_cases hname : name = ""
      · rw [if_pos hname] at hb'
        exact hnn b' hb'
      · rw [if_neg hname] at hb'
        by_cases hq : qty < 0
        · rw [if_pos hq] at hb'
          exact hnn b' hb'
        · rw [if_neg hq] at hb'
          simp only [List.mem_append, List.mem_singleton] at hb'
          rcases hb' with hmem | rfl
          · exact hnn b' hmem
          · exact not_lt.mp hq
  · intro state item_id new_exp now src
    simp only [update_item_exp_by_id, List.map_map]
    apply List.map_congr_left
    intro b _
    simp only [Function.comp]
    by_cases h : b.id = item_id <;> simp [h]
  · intro defaults inv name days now cnt defs2 inv2 heq
    unfold update_default_and_recalc_items at heq
    by_cases hd : days ≤ 0
    · rw [if_pos hd] at heq; cases heq
    · rw [if_neg hd] at heq
      simp only [Option.some_inj, Prod.mk.injEq] at heq
      rw [← heq.2.2, List.map_map]
      apply List.map_congr_left
      intro b _
      simp only [Function.comp]
      rcases hfind : (List.map (fun r => (r.id, r.in_at)) (inv.filter
        (fun b => b.name == name && b.exp_source == ExpSource.default))).find?
          (fun a => a.1 == b.id) with _ | a <;> rw [hfind]

theorem quantity_invariant_witness :
    (∀ b ∈ wItems, 0 ≤ b.quantity) ∧
    wConsumed ∈ (consume wItems "milk" (5/2) 5).2 ∧
    (0 ≤ wConsumed.quantity ∧ (wConsumed ∈ wItems ∨ 0 < wConsumed.quantity)) :=
  ⟨by decide,
    by norm_num +decide [consume, consumeRows, consumeLoop, applyActs, wItems,
      wConsumed, eps, List.insertionSort, List.orderedInsert, keyLE,
      List.find?, List.filterMap],
    quantity_invariant.1 wItems "milk" (5/2) 5 (by decide) wConsumed
      (by norm_num +decide [consume, consumeRows, consumeLoop, applyActs,
        wItems, wConsumed, eps, List.insertionSort, List.orderedInsert, keyLE,
        List.find?, List.filterMap])⟩

/-- C5 counterexample: the `add` action accepts `quantity = 0` (only
`quantity < 0` violates the schema's `CHECK(quantity >= 0)`), inserting a
batch stored with quantity exactly zero — the zero-quantity row is retained,
so the "never retained at zero" half of the claim fails for `add`. -/
theorem add_zero_quantity_cex :
    (addAction [] [] (some "a") (some 0) none none none (some 5) 0 3 1).1 =
      AddResult.ok 1 0 5 ExpSource.user ∧
    (addAction [] [] (some "a") (some 0) none none none (some 5) 0 3 1).2.2 =
      [⟨1, "a", 0, none, 0, 5, ExpSource.user, 3, 3⟩] ∧
    (⟨1, "a", 0, none, 0, 5, ExpSource.user, 3, 3⟩ : Item).quantity = 0 := by
  refine ⟨?_, ?_, rfl⟩ <;> norm_num +decide [addAction]

/-- C6 (amended): an `add` with a missing/empty name or a missing quantity is
rejected before any mutation; an `add` with a negative quantity is also
rejected with an error and inserts no batch, but the rejection comes from the
storage layer's `CHECK(quantity >= 0)` after expiry resolution, so when no
expiry argument was supplied and no default was registered for the name, a
7-day shelf-life default row has already been created (and committed) by the
time the insert fails. -/
theorem add_validation (defaults : List ShelfLifeDefault) (inv : List Item)
    (name? : Option String) (quantity? : Option ℚ) (unit? : Option String)
    (in_at? exp_days? exp_at? : Option Int) (today : Int) (now nextId : Nat) :
    ((name? = none ∨ name? = some "" ∨ quantity? = none) →
      addAction defaults inv name? quantity? unit? in_at? exp_days? exp_at?
        today now nextId = (AddResult.error, defaults, inv)) ∧
    (∀ (name : String) (qty : ℚ), name? = some name → name ≠ "" →
      quantity? = some qty → qty < 0 →
      (addAction defaults inv name? quantity? unit? in_at? exp_days? exp_at?
        today now nextId).1 = AddResult.error ∧
      (addAction defaults inv name? quantity? unit? in_at? exp_days? exp_at?
        today now nextId).2.2 = inv ∧
      ((addAction defaults inv name? quantity? unit? in_at? exp_days? exp_at?
        today now nextId).2.1 = defaults ∨
        (exp_days? = none ∧ exp_at? = none ∧
          get_default_days defaults name = none ∧
          (addAction defaults inv name? quantity? unit? in_at? exp_days?
            exp_at? today now nextId).2.1 =
            upsert_default_days defaults name 7 now))) := by
  constructor
  · rintro (rfl | rfl | rfl)
    · rfl
    · cases quantity? <;> simp [addAction]
    · cases name? <;> simp [addAction]
  · rintro name qty rfl hname rfl hq
    simp only [addAction]
    rw [if_neg hname, if_pos hq]
    refine ⟨rfl, rfl, ?_⟩
    rcases exp_days? with _ | k
    · rcases exp_at? with _ | e
      · rcases hgd : get_default_days defaults name with _ | d
        · exact Or.inr ⟨rfl, rfl, hgd ▸ rfl, rfl⟩
        · exact Or.inl rfl
      · exact Or.inl rfl
    · exact Or.inl rfl

theorem add_validation_witness :
    (addAction [] [] (some "milk") (some (-1)) none none none none 0 3 1).1 =
      AddResult.error ∧
    (addAction [] [] (some "milk") (some (-1)) none none none none 0 3 1).2.2 =
      [] ∧
    ((addAction [] [] (some "milk") (some (-1)) none none none none 0 3 1).2.1 =
      [] ∨
      (none = (none : Option Int) ∧ none = (none : Option Int) ∧
        get_default_days [] "milk" = none ∧
        (addAction [] [] (some "milk") (some (-1)) none none none none
          0 3 1).2.1 = upsert_default_days [] "milk" 7 3)) :=
  (add_validation [] [] (some "milk") (some (-1)) none none none none
    0 3 1).2 "milk" (-1) rfl (by decide) rfl (by norm_num)

lemma fromiso_none_of_splitDate (cs : List Char) (h : splitDate cs = none) :
    fromisoChars cs = none := by
  unfold fromisoChars
  rw [h]

lemma splitDate_eq_none (cs : List Char) (h4 : cs[4]? = some '-')
    (hlen : cs.length ≤ 9) : splitDate cs = none := by
  unfold splitDate
  split
  · simp at hlen
  · simp only [List.getElem?_cons_succ, List.getElem?_cons_zero,
      Option.some_inj] at h4
    simp [h4]
  · rfl

lemma exact_imp_strptime (cs : List Char) (d : Ymd)
    (h : exactYMDChars cs = some d) : strptimeYMD cs = some d := by
  unfold exactYMDChars at h
  split at h
  · rename_i y1 y2 y3 y4 m1 m2 d1 d2
    split at h
    · rename_i hcond
      simp only [Bool.and_eq_true] at hcond
      obtain ⟨⟨⟨⟨⟨⟨⟨h1, h2⟩, h3⟩, h4⟩, h5⟩, h6⟩, h7⟩, h8⟩ := hcond
      simp [strptimeYMD, parseMDraw, h1, h2, h3, h4, h5, h6, h7, h8, h]
    · cases h
  · cases h

lemma strptime_not_exact (cs : List Char) (d : Ymd)
    (h : strptimeYMD cs = some d) (hex : exactYMDChars cs = none) :
    fromisoChars cs = none ∧ cs.take 10 = cs := by
  unfold strptimeYMD at h
  split at h
  case _ y1 y2 y3 y4 rest =>
    split at h
    case _ hy =>
      simp only [Bool.and_eq_true] at hy
      obtain ⟨⟨⟨hy1, hy2⟩, hy3⟩, hy4⟩ := hy
      cases hmd : parseMDraw rest with
      | none => rw [hmd] at h; cases h
      | some md =>
        obtain ⟨M, D⟩ := md
        rw [hmd] at h
        have h' : mkYmd (1000 * dig y1 + 100 * dig y2 + 10 * dig y3 + dig y4)
            M D = some d := h
        unfold parseMDraw at hmd
        split at hmd
        case _ m1 d1 =>
          refine ⟨fromiso_none_of_splitDate _ (splitDate_eq_none _ (by simp)
            (by simp)), List.take_of_length_le (by simp)⟩
        case _ m1 d1 d2 =>
          refine ⟨fromiso_none_of_splitDate _ (splitDate_eq_none _ (by simp)
            (by simp)), List.take_of_length_le (by simp)⟩
        case _ m1 m2 d1 =>
          refine ⟨fromiso_none_of_splitDate _ (splitDate_eq_none _ (by simp)
            (by simp)), List.take_of_length_le (by simp)⟩
        case _ m1 m2 d1 d2 =>
          split at hmd
          case _ hmd2 =>
            simp only [Bool.and_eq_true] at hmd2
            obtain ⟨⟨⟨h5, h6⟩, h7⟩, h8⟩ := hmd2
            simp only [Option.some_inj] at hmd
            injection hmd with hM hD
            subst hM
            subst hD
            exfalso
            have hx : exactYMDChars
                (y1 :: y2 :: y3 :: y4 :: '-' :: m1 :: m2 :: '-' :: d1 ::
                  d2 :: []) = some d := by
              simp only [exactYMDChars]
              rw [if_pos (by simp [hy1, hy2, hy3, hy4, h5, h6, h7, h8])]
              exact h'
            rw [hex] at hx
            cases hx
          case _ => cases hmd
        case _ => cases hmd
    case _ => cases h
  case _ => cases h

lemma stages_eq (cs : List Char) (tzoff : Int) :
    pyStages cs tzoff = specStages cs tzoff := by
  cases h1 : strptimeYMD cs with
  | none =>
    have hex : exactYMDChars cs = none := by
      cases hx : exactYMDChars cs with
      | none => rfl
      | some d => rw [exact_imp_strptime cs d hx] at h1; cases h1
    unfold pyStages specStages
    rw [h1, hex]
  | some d =>
    cases hex : exactYMDChars cs with
    | some d2 =>
      have := exact_imp_strptime cs d2 hex
      rw [h1] at this
      unfold pyStages specStages
      rw [h1, hex, this]
    | none =>
      obtain ⟨hiso, htake⟩ := strptime_not_exact cs d h1 hex
      unfold pyStages specStages
      rw [h1, hex, hiso, htake, h1]

/-- C7: the date normalizer implements exactly the claimed precedence: an
absent (falsy) value resolves to today; otherwise stage (1) exact
`YYYY-MM-DD`, else stage (2) ISO-8601 date-time with timezone
attachment/conversion, else stage (3) `%Y-%m-%d` over the first ten
characters, whose failure is the terminal error.  Both the tool-layer parser
(with the absent-value rule) and the db-layer parser (text only) agree with
the spec pipeline on every input.  (The code's stage (1) is `strptime`, which
also accepts one-digit month/day; such inputs are exactly the ones the spec
pipeline accepts at stage (3) with the same resulting date, so the two
pipelines are extensionally equal.) -/
theorem date_parse_precedence :
    (∀ (s? : Option String) (tzoff : Int) (today : Ymd),
      parse_to_date s? tzoff today = specNormalize s? tzoff today) ∧
    (∀ (s : String) (tzoff : Int),
      parse_text_to_date s tzoff = specStages (pyStrip s.data) tzoff) := by
  constructor
  · intro s? tzoff today
    cases s? with
    | none => rfl
    | some s =>
      show (if s = "" then some today else pyStages (pyStrip s.data) tzoff) =
        (if s = "" then some today else specStages (pyStrip s.data) tzoff)
      by_cases hs : s = ""
      · rw [if_pos hs, if_pos hs]
      · rw [if_neg hs, if_neg hs, stages_eq]
  · intro s tzoff
    exact stages_eq (pyStrip s.data) tzoff

/-- C6 counterexample: `add(name="milk", quantity=-1)` with no expiry
argument and no registered default returns an error and inserts no batch,
but it *does* create the 7-day shelf-life default row before failing — the
claim that no shelf-life default is created or changed on such a rejected
call is false. -/
theorem add_negative_mutates_defaults_cex :
    (addAction [] [] (some "milk") (some (-1)) none none none none 0 3 1).1 =
      AddResult.error ∧
    (addAction [] [] (some "milk") (some (-1)) none none none none 0 3 1).2.1 =
      [⟨"milk", 7, 3, 3⟩] ∧
    (addAction [] [] (some "milk") (some (-1)) none none none none 0 3 1).2.2 =
      [] := by
  refine ⟨?_, ?_, ?_⟩ <;>
    norm_num +decide [addAction, get_default_days, upsert_default_days]

lemma mapRows_forall2 {A B : Type} (f : A → Option B) :
    ∀ (l : List A) (l' : List B), mapRows f l = some l' →
      List.Forall₂ (fun a b => f a = some b) l l' := by
  intro l
  induction l with
  | nil =>
    intro l' h
    simp only [mapRows, Option.some_inj] at h
    rw [← h]
    exact List.Forall₂.nil
  | cons a l ih =>
    intro l' h
    simp only [mapRows] at h
    cases hfa : f a with
    | none => rw [hfa] at h; simp at h
    | some b =>
      cases hml : mapRows f l with
      | none => rw [hfa, hml] at h; simp at h
      | some bs =>
        rw [hfa, hml] at h
        simp only [Option.some_inj] at h
        rw [← h]
        exact List.Forall₂.cons hfa (ih bs hml)

lemma forall2_mem_right {A B : Type} {R : A → B → Prop} :
    ∀ {l : List A} {l' : List B}, List.Forall₂ R l l' →
      ∀ b ∈ l', ∃ a ∈ l, R a b := by
  intro l l' h
  induction h with
  | nil => simp
  | cons hR hF ih =>
    intro b hb
    rcases List.mem_cons.mp hb with rfl | hb2
    · exact ⟨_, List.mem_cons_self _ _, hR⟩
    · obtain ⟨a, ha, hr⟩ := ih b hb2
      exact ⟨a, List.mem_cons_of_mem _ ha, hr⟩

lemma mapRows_id {A : Type} (f : A → Option A) :
    ∀ (l : List A), (∀ a ∈ l, f a = some a) → mapRows f l = some l := by
  intro l h
  induction l with
  | nil => rfl
  | cons a l ih =>
    have ha := h a (List.mem_cons_self a l)
    have hl := ih (fun x hx => h x (List.mem_cons_of_mem a hx))
    simp [mapRows, ha, hl]

lemma mapRows_eq_none {A B : Type} (f : A → Option B) (l : List A)
    (h : ∃ a ∈ l, f a = none) : mapRows f l = none := by
  obtain ⟨a, ha, hfa⟩ := h
  induction l with
  | nil => cases ha
  | cons x l ih =>
    simp only [mapRows]
    rcases List.mem_cons.mp ha with rfl | ha2
    · rw [hfa]
    · rw [ih ha2]
      cases f x <;> rfl

lemma ne_T_digitChar (n : Nat) : ('T' = digitChar n) = False := by
  unfold digitChar
  split <;> simp

lemma length_to_date_str (d : Ymd) (h : 1000 ≤ d.y) :
    (to_date_str d).length = 10 := by
  have h1 : ¬ d.y < 10 := by omega
  have h2 : ¬ d.y < 100 := by omega
  have h3 : ¬ d.y < 1000 := by omega
  simp [to_date_str, yearChars, h1, h2, h3, pad4, pad2, String.length]

lemma not_mem_T_yearChars (y : Nat) : 'T' ∉ yearChars y := by
  unfold yearChars
  split_ifs <;> simp [pad4, ne_T_digitChar]

lemma not_mem_T_to_date_str (d : Ymd) : 'T' ∉ (to_date_str d).data := by
  simp [to_date_str, pad2, ne_T_digitChar, not_mem_T_yearChars]

lemma needsFix_rewritten (r : ItemRow) (din dex : Ymd)
    (hy1 : 1000 ≤ din.y) (hy2 : 1000 ≤ dex.y) :
    needsFix
      { r with in_at := to_date_str din, exp_at := to_date_str dex } = false := by
  simp [needsFix, length_to_date_str din hy1, length_to_date_str dex hy2,
    not_mem_T_to_date_str]

lemma fixRow_needsFix_false (tzoff : Int) (r r' : ItemRow)
    (h : fixRow tzoff r = some r')
    (hin : yearOK (parse_text_to_date r.in_at tzoff) = true)
    (hexp : yearOK (parse_text_to_date r.exp_at tzoff) = true) :
    needsFix r' = false := by
  unfold fixRow at h
  by_cases hn : needsFix r = true
  · rw [if_pos hn] at h
    cases hpin : parse_text_to_date r.in_at tzoff with
    | none => rw [hpin] at h; simp at h
    | some din =>
      cases hpex : parse_text_to_date r.exp_at tzoff with
      | none => rw [hpin, hpex] at h; simp at h
      | some dex =>
        rw [hpin, hpex] at h
        simp only [Option.some_inj] at h
        rw [hpin] at hin
        rw [hpex] at hexp
        simp only [yearOK, decide_eq_true_eq] at hin hexp
        rw [← h]
        exact needsFix_rewritten r din dex hin hexp
  · rw [if_neg hn] at h
    simp only [Option.some_inj] at h
    rw [Bool.not_eq_true] at hn
    rw [← h]
    exact hn

lemma fixRow_of_false (tzoff : Int) (r : ItemRow) (h : needsFix r = false) :
    fixRow tzoff r = some r := by
  simp [fixRow, h]

/-- C8 (amended): when the legacy-date migration pass completes, every row
it selected (date text not exactly 10 characters or containing `T`) has been
rewritten through the parser and every other row is untouched (`fixRow`
relates each input row to its output).  *Provided* every date the pass wrote
has year ≥ 1000 — so that the unpadded `%Y` renders four digits — the
rewritten texts are canonical 10-character `YYYY-MM-DD`, no row matches the
selection predicate afterwards, and an immediate second run touches zero
rows, returning the table unchanged.  (For a rewritten year below 1000 the
output is shorter than 10 characters and idempotence fails — see the
counterexample.) -/
theorem normalize_pass_idempotent (tzoff : Int) (rows rows' : List ItemRow)
    (h : normalize_existing_rows_to_date_only tzoff rows = some rows')
    (h1000 : ∀ r ∈ rows, yearOK (parse_text_to_date r.in_at tzoff) = true ∧
      yearOK (parse_text_to_date r.exp_at tzoff) = true) :
    List.Forall₂ (fun r r' => fixRow tzoff r = some r') rows rows' ∧
    rows'.filter (fun r => needsFix r) = [] ∧
    normalize_existing_rows_to_date_only tzoff rows' = some rows' := by
  have hf2 := mapRows_forall2 (fixRow tzoff) rows rows' h
  have hfixed : ∀ r' ∈ rows', needsFix r' = false := by
    intro r' hr'
    obtain ⟨r, hr, hfr⟩ := forall2_mem_right hf2 r' hr'
    obtain ⟨hin, hexp⟩ := h1000 r hr
    exact fixRow_needsFix_false tzoff r r' hfr hin hexp
  refine ⟨hf2, ?_, mapRows_id _ rows'
    (fun r hr => fixRow_of_false tzoff r (hfixed r hr))⟩
  rw [List.filter_eq_nil_iff]
  intro r hr
  simp [hfixed r hr]

theorem normalize_pass_idempotent_witness :
    normalize_existing_rows_to_date_only 480 [legacyRow, cleanRow] =
      some [legacyFixed, cleanRow] ∧
    (∀ r ∈ [legacyRow, cleanRow],
      yearOK (parse_text_to_date r.in_at 480) = true ∧
      yearOK (parse_text_to_date r.exp_at 480) = true) ∧
    (List.Forall₂ (fun r r' => fixRow 480 r = some r')
        [legacyRow, cleanRow] [legacyFixed, cleanRow] ∧
      [legacyFixed, cleanRow].filter (fun r => needsFix r) = [] ∧
      normalize_existing_rows_to_date_only 480 [legacyFixed, cleanRow] =
        some [legacyFixed, cleanRow]) :=
  ⟨by decide, by decide, normalize_pass_idempotent 480 [legacyRow, cleanRow]
    [legacyFixed, cleanRow] (by decide) (by decide)⟩

/-- C8 counterexample: a selected row whose stored `in_at` parses to the
year 202 is rewritten by `strftime("%Y-%m-%d")` — whose `%Y` does not
zero-pad years below 1000 — to the 9-character `"202-01-05"`.  That text is
not canonical, the row still matches the selection predicate, and the second
run raises (every parser stage fails on `"202-01-05"`): the pass rewrote a
selected row to a non-canonical form and a second run touches it again, so
the claimed unconditional idempotence is false. -/
theorem normalize_pass_not_idempotent_cex :
    normalize_existing_rows_to_date_only 480 [oldYearRow] =
      some [oldYearFixed] ∧
    oldYearFixed.in_at = "202-01-05" ∧
    needsFix oldYearFixed = true ∧
    [oldYearFixed].filter (fun r => needsFix r) = [oldYearFixed] ∧
    normalize_existing_rows_to_date_only 480 [oldYearFixed] = none := by
  refine ⟨by decide, by decide, by decide, by decide, by decide⟩

/-- C9 (amended): the default upsert commits first and on its own; when the
recalculation fails partway (an unparseable stored `in_at`, or a shift
outside the date range), the call raises and no batch update is committed —
but the new default persists: the committed state is the original inventory
under the already-upserted default, not the untouched original state. -/
theorem set_shelf_life_failure_keeps_default
    (defaults : List ShelfLifeDefault) (inv : List ItemRow) (name : String)
    (days : Int) (now : Nat) (tzoff : Int) (hd : 0 < days)
    (hfail : ∃ r ∈ inv.filter
      (fun b => b.name == name && b.exp_source == ExpSource.default),
      (parse_text_to_date r.in_at tzoff).bind
        (fun d0 => addDays d0 days) = none) :
    update_default_and_recalc_items_text defaults inv name days now tzoff =
      (none, upsert_default_days defaults name days now, inv) := by
  unfold update_default_and_recalc_items_text
  rw [if_neg (not_le.mpr hd)]
  have hnone : mapRows (fun r => (parse_text_to_date r.in_at tzoff).bind
      (fun d0 => (addDays d0 days).map (fun d2 => (r.id, to_date_str d2))))
      (inv.filter
        (fun b => b.name == name && b.exp_source == ExpSource.default)) =
      none := by
    obtain ⟨r, hr, hrn⟩ := hfail
    apply mapRows_eq_none
    refine ⟨r, hr, ?_⟩
    cases hp : parse_text_to_date r.in_at tzoff with
    | none => simp [hp]
    | some d0 =>
      rw [hp] at hrn
      simp only [Option.some_bind] at hrn
      simp [hp, hrn]
  simp only [hnone]

theorem set_shelf_life_failure_witness :
    (0 : Int) < 10 ∧
    (∃ r ∈ [badRow].filter
      (fun b => b.name == "milk" && b.exp_source == ExpSource.default),
      (parse_text_to_date r.in_at 480).bind
        (fun d0 => addDays d0 10) = none) ∧
    update_default_and_recalc_items_text [] [badRow] "milk" 10 5 480 =
      (none, upsert_default_days [] "milk" 10 5, [badRow]) :=
  ⟨by decide, by decide,
    set_shelf_life_failure_keeps_default [] [badRow] "milk" 10 5 480
      (by decide) (by decide)⟩

/-- C9 counterexample: with one default-sourced milk batch whose stored
`in_at` is unparseable, `SetShelfLife("milk", 10)` fails — yet the committed
defaults table now holds the new 10-day default while the batch is untouched:
a failing run leaves a visible partial effect, so the claimed atomicity
("neither the default table nor any batch is changed") is false. -/
theorem set_shelf_life_nonatomic_cex :
    (update_default_and_recalc_items_text [] [badRow] "milk" 10 5 480).1 =
      none ∧
    (update_default_and_recalc_items_text [] [badRow] "milk" 10 5 480).2.1 =
      [⟨"milk", 10, 5, 5⟩] ∧
    (update_default_and_recalc_items_text [] [badRow] "milk" 10 5 480).2.2 =
      [badRow] := by
  refine ⟨by decide, by decide, by decide⟩

end Fridge
